import Mathlib

/-!
Verification development for the FFD parameter handling code
(`pygem/params/ffdparams.py`, class `FFDParameters`).

Modelling conventions:
* Python floats are modelled by `ℚ` (the textual encoding `str`/`float`
  round-trips exactly for Python floats, so exact rationals capture the
  write/read behaviour up to the formatting tolerance the spec allows).
* The three NumPy weight arrays `array_mu_x/y/z` of shape
  `n_control_points` are modelled as total functions `(Fin 3 → ℕ) → ℚ`;
  all statements about them are made at indices inside the shape.
* Fallible operations are modelled in `Except String`; Python methods that
  raise before mutating `self` are modelled as pure functions returning
  either the new store or an error.
-/

/-- Weight array: one rational per (i, j, k) grid index. -/
abbrev WArr : Type := (Fin 3 → ℕ) → ℚ

/-- The in-memory parameter store, mirroring the fields set in
`FFDParameters.__init__`. -/
@[ext]
structure FFDParameters where
  conversion_unit : ℚ
  box_length : Fin 3 → ℚ
  box_origin : Fin 3 → ℚ
  rot_angle : Fin 3 → ℚ
  n_control_points : Fin 3 → ℕ
  array_mu_x : WArr
  array_mu_y : WArr
  array_mu_z : WArr

/-- The default-constructed store (`FFDParameters()` with
`n_control_points=None`): resolution (2,2,2), unit box, zero origin and
rotation, all weights zero. -/
def defaultFFD : FFDParameters :=
  { conversion_unit := 1
    box_length := ![1, 1, 1]
    box_origin := ![0, 0, 0]
    rot_angle := ![0, 0, 0]
    n_control_points := ![2, 2, 2]
    array_mu_x := fun _ => 0
    array_mu_y := fun _ => 0
    array_mu_z := fun _ => 0 }

/-- The three weight arrays as a vector indexed by axis, in the order
(x, y, z) used throughout the source. -/
def muArray (s : FFDParameters) : Fin 3 → WArr :=
  ![s.array_mu_x, s.array_mu_y, s.array_mu_z]

/-- Projection helper: the payload of a successful `Except`, with a default
for the error case (used only to state theorems about successful runs). -/
def okD {α : Type} (d : α) : Except String α → α
  | .ok v => v
  | .error _ => d

/-- Boolean test for the error case of an `Except`. -/
def isErr {α : Type} : Except String α → Bool
  | .ok _ => false
  | .error _ => true

/-! ### Reflection (`FFDParameters.reflect`)

The NumPy array surgery
`np.append(A, reflection[b] * np.flip(A, axis)[1:along axis], axis=axis)`
is translated compositionally: `npFlip` is `np.flip(A, axis)` (within the
shape `n`), `npTail` is the `[1:]` slice along the axis, and `npAppend`
concatenates two blocks along the axis, the first block occupying indices
`0 .. n axis - 1`. -/

/-- `np.flip(A, a)` for an array of shape `n`. -/
def npFlip (n : Fin 3 → ℕ) (a : Fin 3) (A : WArr) : WArr :=
  fun idx => A (Function.update idx a (n a - 1 - idx a))

/-- The slice `[1:]` along axis `a`. -/
def npTail (a : Fin 3) (A : WArr) : WArr :=
  fun idx => A (Function.update idx a (idx a + 1))

/-- `np.append(A, B, axis=a)` where `A` has extent `n a` along `a`. -/
def npAppend (n : Fin 3 → ℕ) (a : Fin 3) (A B : WArr) : WArr :=
  fun idx => if idx a < n a then A idx else B (Function.update idx a (idx a - n a))

/-- The vector `reflection` from the source: `np.ones(3)` with
`reflection[axis] = -1`, read at component `b`. -/
def reflSign (a b : Fin 3) : ℚ :=
  if b = a then -1 else 1

/-- One weight array after reflection along axis `a` with sign `c`:
`np.append(A, c * np.flip(A, a)[1: along a], axis=a)`. -/
def reflectedArray (n : Fin 3 → ℕ) (a : Fin 3) (c : ℚ) (A : WArr) : WArr :=
  npAppend n a A (fun idx => c * npTail a (npFlip n a A) idx)

/-- The symmetry-plane check of `reflect`: whether the weight array for the
chosen axis has a nonzero entry on the last slice along that axis
(`np.count_nonzero(self.array_mu_<a>[.. -1 ..]) != 0`). -/
def symFaceNonzero (s : FFDParameters) (a : Fin 3) : Bool :=
  (List.range (s.n_control_points 0)).any fun i =>
    (List.range (s.n_control_points 1)).any fun j =>
      (List.range (s.n_control_points 2)).any fun k =>
        decide ((![i, j, k] : Fin 3 → ℕ) a = s.n_control_points a - 1) &&
          decide (muArray s a ![i, j, k] ≠ 0)

/-- The axis argument, mapped to `Fin 3` once it is known to be 0, 1 or 2. -/
def axisFin (axis : ℤ) : Fin 3 :=
  if axis = 0 then 0 else if axis = 1 then 1 else 2

/-- `FFDParameters.reflect`: validates the axis and the symmetry plane,
then doubles the resolution/box length along the axis and mirrors the
weight arrays (negating the one matching the axis). Both raises in the
source occur before any field assignment. -/
def reflectE (axis : ℤ) (s : FFDParameters) : Except String FFDParameters :=
  if axis = 0 ∨ axis = 1 ∨ axis = 2 then
    if symFaceNonzero s (axisFin axis) then
      .error "control points in the symmetry plane are displaced along the axis"
    else
      .ok { s with
        n_control_points :=
          Function.update s.n_control_points (axisFin axis)
            (2 * s.n_control_points (axisFin axis) - 1)
        box_length :=
          Function.update s.box_length (axisFin axis)
            (2 * s.box_length (axisFin axis))
        array_mu_x :=
          reflectedArray s.n_control_points (axisFin axis)
            (reflSign (axisFin axis) 0) s.array_mu_x
        array_mu_y :=
          reflectedArray s.n_control_points (axisFin axis)
            (reflSign (axisFin axis) 1) s.array_mu_y
        array_mu_z :=
          reflectedArray s.n_control_points (axisFin axis)
            (reflSign (axisFin axis) 2) s.array_mu_z }
  else .error "The axis has to be 0, 1, or 2."

/-- The post-state of the in-place call `s.reflect(axis)`: the updated
store on success; on an exception the store is unchanged, because both
raises in the source precede every field assignment. -/
def reflectPost (axis : ℤ) (s : FFDParameters) : FFDParameters :=
  okD s (reflectE axis s)

/-! ### Parameter file codec
(`FFDParameters.write_parameters` / `FFDParameters.read_parameters`)

The on-disk `.prm` file is modelled structurally, after the text layer:
`configparser` keys become record fields and each whitespace-separated
weight line `i j k w` becomes a tuple. Python's `str`/`getint`/`getfloat`
round-trip numbers exactly, so the textual layer adds nothing the claims
depend on. One textual quirk is kept: an empty weight section parses (via
`''.split('\n')`) to one malformed line and raises, so an empty line list
is a read error. -/

/-- One weight line of a `.prm` file: `x index, y index, z index, weight`. -/
abbrev Line : Type := ℕ × ℕ × ℕ × ℚ

/-- The (i, j, k) index triple of a weight line. -/
def lineTriple (l : Line) : ℕ × ℕ × ℕ :=
  (l.1, l.2.1, l.2.2.1)

/-- The weight value of a weight line. -/
def lineVal (l : Line) : ℚ :=
  l.2.2.2

/-- Whether the indices of a weight line are inside the declared
resolution (NumPy raises `IndexError` on assignment otherwise). -/
def lineInBounds (n : Fin 3 → ℕ) (l : Line) : Bool :=
  decide (l.1 < n 0) && decide (l.2.1 < n 1) && decide (l.2.2.1 < n 2)

/-- The assignment `array[(i, j, k)] = w` performed for one weight line. -/
def setEntry (A : WArr) (l : Line) : WArr :=
  fun idx => if idx 0 = l.1 ∧ idx 1 = l.2.1 ∧ idx 2 = l.2.2.1 then lineVal l else A idx

/-- Processes the weight lines of one section in order: each line is
assigned into the array, raising when its indices are out of range. -/
def applyLines (n : Fin 3 → ℕ) : WArr → List Line → Except String WArr
  | A, [] => .ok A
  | A, l :: rest =>
      if lineInBounds n l then applyLines n (setEntry A l) rest
      else .error "weight line index out of range"

/-- Reads one weight section: starts from `np.zeros(n_control_points)`
and applies every listed line. An empty section is the `['']` parse of an
empty string and raises. -/
def readWeightArr (n : Fin 3 → ℕ) (lines : List Line) : Except String WArr :=
  match lines with
  | [] => .error "malformed weight line"
  | l :: rest => applyLines n (fun _ => 0) (l :: rest)

/-- Structural model of a `.prm` parameters file: the `[Box info]` keys
and the three weight sections of `[Parameters weights]`. -/
structure PrmFile where
  ncpts : Fin 3 → ℕ
  blen : Fin 3 → ℚ
  borigin : Fin 3 → ℚ
  rangle : Fin 3 → ℚ
  linesX : List Line
  linesY : List Line
  linesZ : List Line

/-- The weight lines emitted by the writer for one array: one line per
grid index, `i` outermost and `k` innermost, zero weights included. -/
def weightLines (n : Fin 3 → ℕ) (A : WArr) : List Line :=
  (List.range (n 0)).flatMap fun i =>
    (List.range (n 1)).flatMap fun j =>
      (List.range (n 2)).map fun k => (i, j, k, A ![i, j, k])

/-- `FFDParameters.write_parameters`: serializes every field of the store
(`conversion_unit` is not written). -/
def write_parameters (s : FFDParameters) : PrmFile :=
  { ncpts := s.n_control_points
    blen := s.box_length
    borigin := s.box_origin
    rangle := s.rot_angle
    linesX := weightLines s.n_control_points s.array_mu_x
    linesY := weightLines s.n_control_points s.array_mu_y
    linesZ := weightLines s.n_control_points s.array_mu_z }

/-- `FFDParameters.read_parameters` on an existing file: overwrites the
box fields and resolution from the file, reallocates the three weight
arrays as zeros of the parsed resolution and applies the listed weight
lines (x, then y, then z); the first bad line raises. `conversion_unit`
is not touched. -/
def read_parameters_file (f : PrmFile) (s : FFDParameters) : Except String FFDParameters :=
  match readWeightArr f.ncpts f.linesX, readWeightArr f.ncpts f.linesY,
      readWeightArr f.ncpts f.linesZ with
  | .ok ax, .ok ay, .ok az =>
      .ok { s with
        n_control_points := f.ncpts
        box_length := f.blen
        box_origin := f.borigin
        rot_angle := f.rangle
        array_mu_x := ax
        array_mu_y := ay
        array_mu_z := az }
  | .error e, _, _ => .error e
  | _, .error e, _ => .error e
  | _, _, .error e => .error e

/-- `FFDParameters.read_parameters` on a path with no existing file
(`not os.path.isfile`): the method writes the current store to the path
and returns immediately, leaving the store as it was. The result pairs the
post-state of the store with the file created. -/
def read_parameters_missing (s : FFDParameters) : FFDParameters × PrmFile :=
  (s, write_parameters s)

/-- The store produced by a successful parse (statement helper). -/
def readResult (f : PrmFile) (s : FFDParameters) : FFDParameters :=
  okD s (read_parameters_file f s)

/-! ### Geometric transforms and lattice-point generation -/

/-- `FFDParameters.psi_mapping`:
`np.diag(np.reciprocal(self.box_length))`. -/
def psi_mapping (s : FFDParameters) : Matrix (Fin 3) (Fin 3) ℚ :=
  Matrix.diagonal fun i => (s.box_length i)⁻¹

/-- `FFDParameters.inv_psi_mapping`: `np.diag(self.box_length)`. -/
def inv_psi_mapping (s : FFDParameters) : Matrix (Fin 3) (Fin 3) ℚ :=
  Matrix.diagonal s.box_length

/-- The exception behaviour of evaluating the `psi_mapping` property,
embedded into `Except`: the body is a single `np.diag(np.reciprocal(...))`
expression and contains no raise (`np.reciprocal` of a zero float yields
`inf` under a runtime warning, not an exception), so the result is always
`ok`. -/
def psi_mappingE (s : FFDParameters) : Except String (Matrix (Fin 3) (Fin 3) ℚ) :=
  .ok (psi_mapping s)

/-- `np.linspace(0, L, n)` at position `i`: evenly spaced from 0 to `L`;
a single point at 0 when `n = 1`. -/
def linspace (L : ℚ) (n : ℕ) (i : ℕ) : ℚ :=
  if n ≤ 1 then 0 else L * i / ((n - 1 : ℕ) : ℚ)

/-- The undisplaced lattice points of `save_points`, in emission order.
The source builds `np.meshgrid(y, x, z)` (default `indexing='xy'`, which
swaps the first two axes back), so the three coordinate grids satisfy
`lattice_x[i,j,k] = x[i]`, `lattice_y[i,j,k] = y[j]`,
`lattice_z[i,j,k] = z[k]` with shape `(nx, ny, nz)`; `ravel()` then walks
them in row-major (i, j, k) order. -/
def latticePoints (s : FFDParameters) : List (Fin 3 → ℚ) :=
  (List.range (s.n_control_points 0)).flatMap fun i =>
    (List.range (s.n_control_points 1)).flatMap fun j =>
      (List.range (s.n_control_points 2)).map fun k =>
        ![linspace (s.box_length 0) (s.n_control_points 0) i,
          linspace (s.box_length 1) (s.n_control_points 1) j,
          linspace (s.box_length 2) (s.n_control_points 2) k]

/-- Modelled from the spec: the rotation about x used by
`pygem.affine.angles2matrix`, whose source file is not part of the
provided sources (only its caller `rotation_matrix` is). -/
noncomputable def rotAboutX (t : ℝ) : Matrix (Fin 3) (Fin 3) ℝ :=
  !![1, 0, 0; 0, Real.cos t, -Real.sin t; 0, Real.sin t, Real.cos t]

/-- Modelled from the spec: the rotation about y. -/
noncomputable def rotAboutY (t : ℝ) : Matrix (Fin 3) (Fin 3) ℝ :=
  !![Real.cos t, 0, Real.sin t; 0, 1, 0; -Real.sin t, 0, Real.cos t]

/-- Modelled from the spec: the rotation about z. -/
noncomputable def rotAboutZ (t : ℝ) : Matrix (Fin 3) (Fin 3) ℝ :=
  !![Real.cos t, -Real.sin t, 0; Real.sin t, Real.cos t, 0; 0, 0, 1]

/-- Modelled from the spec: `pygem.affine.angles2matrix(rz, ry, rx)` is
not in the provided sources; per the spec (section 4.2) it composes
extrinsic rotations as `R = Rz · Ry · Rx`, radians, z outermost. -/
noncomputable def angles2matrix (rz ry rx : ℝ) : Matrix (Fin 3) (Fin 3) ℝ :=
  rotAboutZ rz * rotAboutY ry * rotAboutX rx

/-- `np.radians`: degrees to radians. -/
noncomputable def radians (q : ℚ) : ℝ :=
  (q : ℝ) * Real.pi / 180

/-- `FFDParameters.rotation_matrix`:
`angles2matrix(radians(rot_angle[2]), radians(rot_angle[1]), radians(rot_angle[0]))`. -/
noncomputable def rotation_matrix (s : FFDParameters) : Matrix (Fin 3) (Fin 3) ℝ :=
  angles2matrix (radians (s.rot_angle 2)) (radians (s.rot_angle 1))
    (radians (s.rot_angle 0))

/-- A rational lattice point viewed in `ℝ` (the float working type of
`save_points`). -/
def castPoint (p : Fin 3 → ℚ) : Fin 3 → ℝ :=
  fun r => (p r : ℝ)

/-- The point list `save_points` hands to the vtk writer when
`write_deformed=False`: each undisplaced lattice point is rotated by
`rotation_matrix` and translated by `box_origin`. -/
noncomputable def save_points_undisplaced (s : FFDParameters) : List (Fin 3 → ℝ) :=
  (latticePoints s).map fun p =>
    (rotation_matrix s).mulVec (castPoint p) + castPoint s.box_origin

/-- The 8 corners of the unit cube, in row-major (i, j, k) order. -/
def unitCubeCorners : List (Fin 3 → ℝ) :=
  [![0, 0, 0], ![0, 0, 1], ![0, 1, 0], ![0, 1, 1],
   ![1, 0, 0], ![1, 0, 1], ![1, 1, 0], ![1, 1, 1]]

/-! ### Concrete inputs used to instantiate the theorems -/

/-- A store whose only nonzero x-weight sits at (0,0,0): its x symmetry
face (index 1 along x) is entirely zero, so `reflect(0)` is legal. -/
def reflectWitnessStore : FFDParameters :=
  { defaultFFD with
    array_mu_x := fun idx => if idx 0 = 0 ∧ idx 1 = 0 ∧ idx 2 = 0 then 1 / 2 else 0 }

/-- The store of the docstring example `FFDParameters(n_control_points=[2, 3, 2])`:
a non-default resolution with all other fields default. -/
def nonDefaultStore : FFDParameters :=
  { defaultFFD with n_control_points := ![2, 3, 2] }

/-- A store with a degenerate box: zero length along x. -/
def zeroLenStore : FFDParameters :=
  { defaultFFD with box_length := ![0, 1, 1] }

/-- A store with a non-default origin and one nonzero x-weight, used to
instantiate the write/read round trip. -/
def roundtripStore : FFDParameters :=
  { defaultFFD with
    box_origin := ![4, 5, 6]
    array_mu_x := fun idx => if idx 2 = 1 then 3 else 0 }

/-- A hand-written parameters file: resolution (2,2,2), one listed line
per section, all indices in range. -/
def sampleFile : PrmFile :=
  { ncpts := ![2, 2, 2]
    blen := ![1, 1, 1]
    borigin := ![0, 0, 0]
    rangle := ![0, 0, 0]
    linesX := [(0, 0, 0, 3)]
    linesY := [(0, 0, 0, 0)]
    linesZ := [(1, 1, 1, 5)] }

/-! ### Lemmas about reflection -/

lemma reflectedArray_low (n : Fin 3 → ℕ) (a : Fin 3) (c : ℚ) (A : WArr)
    (idx : Fin 3 → ℕ) (h : idx a < n a) :
    reflectedArray n a c A idx = A idx := by
  simp [reflectedArray, npAppend, h]

lemma reflectedArray_mirror (n : Fin 3 → ℕ) (a : Fin 3) (c : ℚ) (A : WArr)
    (idx : Fin 3 → ℕ) (m : ℕ) (hn : 1 ≤ n a) (hm : 1 ≤ m) :
    reflectedArray n a c A (Function.update idx a (n a - 1 + m)) =
      c * A (Function.update idx a (n a - 1 - m)) := by
  have h1 : Function.update idx a (n a - 1 + m) a = n a - 1 + m :=
    Function.update_same a (n a - 1 + m) idx
  have hge : ¬ (Function.update idx a (n a - 1 + m) a < n a) := by
    rw [h1]; omega
  have h2 : n a - 1 + m - n a = m - 1 := by omega
  unfold reflectedArray npAppend npTail npFlip
  rw [if_neg hge]
  simp only [Function.update_idem, Function.update_same, h1, h2]
  have h3 : m - 1 + 1 = m := by omega
  rw [h3]

lemma reflectE_ok (axis : ℤ) (s : FFDParameters)
    (hax : axis = 0 ∨ axis = 1 ∨ axis = 2)
    (hface : symFaceNonzero s (axisFin axis) = false) :
    reflectE axis s = .ok { s with
      n_control_points :=
        Function.update s.n_control_points (axisFin axis)
          (2 * s.n_control_points (axisFin axis) - 1)
      box_length :=
        Function.update s.box_length (axisFin axis)
          (2 * s.box_length (axisFin axis))
      array_mu_x :=
        reflectedArray s.n_control_points (axisFin axis)
          (reflSign (axisFin axis) 0) s.array_mu_x
      array_mu_y :=
        reflectedArray s.n_control_points (axisFin axis)
          (reflSign (axisFin axis) 1) s.array_mu_y
      array_mu_z :=
        reflectedArray s.n_control_points (axisFin axis)
          (reflSign (axisFin axis) 2) s.array_mu_z } := by
  rw [reflectE, if_pos hax, hface]
  simp

lemma muArray_reflectPost (axis : ℤ) (s : FFDParameters) (b : Fin 3)
    (hax : axis = 0 ∨ axis = 1 ∨ axis = 2)
    (hface : symFaceNonzero s (axisFin axis) = false) :
    muArray (reflectPost axis s) b =
      reflectedArray s.n_control_points (axisFin axis)
        (reflSign (axisFin axis) b) (muArray s b) := by
  rw [reflectPost, reflectE_ok axis s hax hface]
  fin_cases b <;> simp [okD, muArray]

/-! ### Claim C1: reflection resolution law and antisymmetry -/

/-- C1: for a store whose axis-`a` weight array is zero on its last slice
along `a`, `reflect(a)` succeeds, sets `n_control_points[a]` to
`2·n_old − 1`, doubles `box_length[a]`, keeps every weight entry with
index along `a` inside `0..n_old−1` in all three arrays, and fills the
appended half so that the entry at `(n_old−1)+m` along `a` is the entry at
`(n_old−1)−m` negated for the weight array matching `a` and unnegated for
the other two (`reflSign` is −1 on the matching array, 1 elsewhere). -/
theorem spec_C1 (axis : ℤ) (s : FFDParameters) (idx : Fin 3 → ℕ) (m : ℕ) (b : Fin 3)
    (hax : axis = 0 ∨ axis = 1 ∨ axis = 2)
    (hn : 1 ≤ s.n_control_points (axisFin axis))
    (hface : symFaceNonzero s (axisFin axis) = false)
    (hidx : idx (axisFin axis) < s.n_control_points (axisFin axis))
    (hm1 : 1 ≤ m) (hm2 : m ≤ s.n_control_points (axisFin axis) - 1) :
    reflectE axis s = .ok (reflectPost axis s)
    ∧ (reflectPost axis s).n_control_points (axisFin axis) =
        2 * s.n_control_points (axisFin axis) - 1
    ∧ (reflectPost axis s).box_length (axisFin axis) =
        2 * s.box_length (axisFin axis)
    ∧ muArray (reflectPost axis s) b idx = muArray s b idx
    ∧ muArray (reflectPost axis s) b
        (Function.update idx (axisFin axis)
          (s.n_control_points (axisFin axis) - 1 + m)) =
      reflSign (axisFin axis) b *
        muArray s b (Function.update idx (axisFin axis)
          (s.n_control_points (axisFin axis) - 1 - m)) := by
  have hok := reflectE_ok axis s hax hface
  have hpost : reflectPost axis s = okD s (reflectE axis s) := rfl
  refine ⟨?_, ?_, ?_, ?_, ?_⟩
  · rw [hok, hpost, hok]; rfl
  · rw [hpost, hok]
    simpa [okD] using Function.update_same (axisFin axis)
      (2 * s.n_control_points (axisFin axis) - 1) s.n_control_points
  · rw [hpost, hok]
    simpa [okD] using Function.update_same (axisFin axis)
      (2 * s.box_length (axisFin axis)) s.box_length
  · rw [muArray_reflectPost axis s b hax hface]
    exact reflectedArray_low _ _ _ _ _ hidx
  · rw [muArray_reflectPost axis s b hax hface]
    exact reflectedArray_mirror _ _ _ _ _ _ hn hm1

/-- C1 witness: `reflect(0)` on `reflectWitnessStore`, checking the entry
at (0,0,0) is kept and mirrored with a sign flip to x-index 2. -/
theorem spec_C1_witness :
    reflectE 0 reflectWitnessStore = .ok (reflectPost 0 reflectWitnessStore)
    ∧ (reflectPost 0 reflectWitnessStore).n_control_points (axisFin 0) =
        2 * reflectWitnessStore.n_control_points (axisFin 0) - 1
    ∧ (reflectPost 0 reflectWitnessStore).box_length (axisFin 0) =
        2 * reflectWitnessStore.box_length (axisFin 0)
    ∧ muArray (reflectPost 0 reflectWitnessStore) 0 ![0, 0, 0] =
        muArray reflectWitnessStore 0 ![0, 0, 0]
    ∧ muArray (reflectPost 0 reflectWitnessStore) 0
        (Function.update ![0, 0, 0] (axisFin 0)
          (reflectWitnessStore.n_control_points (axisFin 0) - 1 + 1)) =
      reflSign (axisFin 0) 0 *
        muArray reflectWitnessStore 0 (Function.update ![0, 0, 0] (axisFin 0)
          (reflectWitnessStore.n_control_points (axisFin 0) - 1 - 1)) :=
  spec_C1 0 reflectWitnessStore ![0, 0, 0] 1 0 (Or.inl rfl) (by decide)
    (by decide) (by decide) (by decide) (by decide)

/-! ### Claim C2: reflection precondition rejection -/

/-- C2: `reflect` raises when the axis is not 0, 1 or 2, and when the
chosen axis's own weight array is nonzero somewhere on its last slice
along that axis; in both cases the store is left unmodified. -/
theorem spec_C2 (axis : ℤ) (s : FFDParameters)
    (h : ¬(axis = 0 ∨ axis = 1 ∨ axis = 2) ∨
      ((axis = 0 ∨ axis = 1 ∨ axis = 2) ∧
        symFaceNonzero s (axisFin axis) = true)) :
    isErr (reflectE axis s) = true ∧ reflectPost axis s = s := by
  rcases h with h | ⟨hax, hface⟩
  · rw [reflectPost, reflectE, if_neg h]
    exact ⟨rfl, rfl⟩
  · rw [reflectPost, reflectE, if_pos hax, hface]
    exact ⟨rfl, rfl⟩

/-- C2 witness: `reflect(3)` on the default store errors and leaves the
store unchanged. -/
theorem spec_C2_witness :
    isErr (reflectE 3 defaultFFD) = true ∧ reflectPost 3 defaultFFD = defaultFFD :=
  spec_C2 3 defaultFFD (Or.inl (by decide))

/-! ### Lemmas about the weight-line fold -/

lemma applyLines_unset (n : Fin 3 → ℕ) :
    ∀ (lines : List Line) (A B : WArr) (idx : Fin 3 → ℕ),
      applyLines n A lines = .ok B →
      (∀ l ∈ lines, lineTriple l ≠ (idx 0, idx 1, idx 2)) →
      B idx = A idx := by
  intro lines
  induction lines with
  | nil =>
      intro A B idx h _
      rw [applyLines] at h
      cases h
      rfl
  | cons l rest ih =>
      intro A B idx h hne
      rw [applyLines] at h
      by_cases hb : lineInBounds n l = true
      · rw [if_pos hb] at h
        have hBr := ih (setEntry A l) B idx h
          (fun x hx => hne x (List.mem_cons_of_mem _ hx))
        rw [hBr]
        have hcond : ¬(idx 0 = l.1 ∧ idx 1 = l.2.1 ∧ idx 2 = l.2.2.1) := by
          rintro ⟨e1, e2, e3⟩
          exact hne l (List.mem_cons_self _ _) (by simp [lineTriple, e1, e2, e3])
        simp [setEntry, hcond]
      · rw [if_neg hb] at h
        cases h

lemma applyLines_set (n : Fin 3 → ℕ) :
    ∀ (lines : List Line) (A B : WArr) (idx : Fin 3 → ℕ) (v : ℚ),
      applyLines n A lines = .ok B →
      (∃ l ∈ lines, lineTriple l = (idx 0, idx 1, idx 2)) →
      (∀ l ∈ lines, lineTriple l = (idx 0, idx 1, idx 2) → lineVal l = v) →
      B idx = v := by
  intro lines
  induction lines with
  | nil =>
      rintro A B idx v _ ⟨l, hl, _⟩ _
      cases hl
  | cons l rest ih =>
      intro A B idx v h hex hall
      rw [applyLines] at h
      by_cases hb : lineInBounds n l = true
      · rw [if_pos hb] at h
        by_cases hrest : ∃ x ∈ rest, lineTriple x = (idx 0, idx 1, idx 2)
        · exact ih (setEntry A l) B idx v h hrest
            (fun x hx => hall x (List.mem_cons_of_mem _ hx))
        · rcases hex with ⟨x, hx, hxt⟩
          rcases List.mem_cons.mp hx with rfl | hx2
          · have hB := applyLines_unset n rest (setEntry A x) B idx h
              (fun y hy he => hrest ⟨y, hy, he⟩)
            rw [hB]
            have he : idx 0 = x.1 ∧ idx 1 = x.2.1 ∧ idx 2 = x.2.2.1 := by
              have := hxt
              simp [lineTriple, Prod.ext_iff] at this
              exact ⟨this.1.symm, this.2.1.symm, this.2.2.symm⟩
            rw [setEntry, if_pos he]
            exact hall x (List.mem_cons_self _ _) hxt
          · exact absurd ⟨x, hx2, hxt⟩ hrest
      · rw [if_neg hb] at h
        cases h

lemma applyLines_okBounds (n : Fin 3 → ℕ) :
    ∀ (lines : List Line) (A B : WArr),
      applyLines n A lines = .ok B → ∀ l ∈ lines, lineInBounds n l = true := by
  intro lines
  induction lines with
  | nil => intro A B _ l hl; cases hl
  | cons l rest ih =>
      intro A B h x hx
      rw [applyLines] at h
      by_cases hb : lineInBounds n l = true
      · rw [if_pos hb] at h
        rcases List.mem_cons.mp hx with rfl | hx2
        · exact hb
        · exact ih (setEntry A l) B h x hx2
      · rw [if_neg hb] at h
        cases h

lemma applyLines_isOk (n : Fin 3 → ℕ) :
    ∀ (lines : List Line) (A : WArr),
      (∀ l ∈ lines, lineInBounds n l = true) →
      ∃ B, applyLines n A lines = .ok B := by
  intro lines
  induction lines with
  | nil => intro A _; exact ⟨A, rfl⟩
  | cons l rest ih =>
      intro A hb
      obtain ⟨B, hB⟩ := ih (setEntry A l) (fun x hx => hb x (List.mem_cons_of_mem _ hx))
      refine ⟨B, ?_⟩
      rw [applyLines, if_pos (hb l (List.mem_cons_self _ _))]
      exact hB

lemma applyLines_zero (n : Fin 3 → ℕ) :
    ∀ (lines : List Line) (A B : WArr),
      (∀ l ∈ lines, lineVal l = 0) → (∀ idx, A idx = 0) →
      applyLines n A lines = .ok B → ∀ idx, B idx = 0 := by
  intro lines
  induction lines with
  | nil =>
      intro A B _ hA h idx
      rw [applyLines] at h
      cases h
      exact hA idx
  | cons l rest ih =>
      intro A B hz hA h idx
      rw [applyLines] at h
      by_cases hb : lineInBounds n l = true
      · rw [if_pos hb] at h
        refine ih (setEntry A l) B (fun x hx => hz x (List.mem_cons_of_mem _ hx)) ?_ h idx
        intro v
        rw [setEntry]
        split
        · exact hz l (List.mem_cons_self _ _)
        · exact hA v
      · rw [if_neg hb] at h
        cases h

/-! ### Lemmas about the writer's weight lines -/

lemma mem_weightLines {n : Fin 3 → ℕ} {A : WArr} {l : Line} :
    l ∈ weightLines n A ↔
      ∃ i j k, i < n 0 ∧ j < n 1 ∧ k < n 2 ∧ l = (i, j, k, A ![i, j, k]) := by
  constructor
  · intro hl
    rw [weightLines] at hl
    rcases List.mem_flatMap.mp hl with ⟨i, hi, hl2⟩
    rcases List.mem_flatMap.mp hl2 with ⟨j, hj, hl3⟩
    rcases List.mem_map.mp hl3 with ⟨k, hk, rfl⟩
    exact ⟨i, j, k, List.mem_range.mp hi, List.mem_range.mp hj,
      List.mem_range.mp hk, rfl⟩
  · rintro ⟨i, j, k, hi, hj, hk, rfl⟩
    rw [weightLines]
    exact List.mem_flatMap.mpr ⟨i, List.mem_range.mpr hi,
      List.mem_flatMap.mpr ⟨j, List.mem_range.mpr hj,
        List.mem_map.mpr ⟨k, List.mem_range.mpr hk, rfl⟩⟩⟩

lemma weightLines_bounds (n : Fin 3 → ℕ) (A : WArr) :
    ∀ l ∈ weightLines n A, lineInBounds n l = true := by
  intro l hl
  rcases mem_weightLines.mp hl with ⟨i, j, k, hi, hj, hk, rfl⟩
  simp [lineInBounds, hi, hj, hk]

lemma weightLines_mem_self (n : Fin 3 → ℕ) (A : WArr) (i j k : ℕ)
    (hi : i < n 0) (hj : j < n 1) (hk : k < n 2) :
    (i, j, k, A ![i, j, k]) ∈ weightLines n A :=
  mem_weightLines.mpr ⟨i, j, k, hi, hj, hk, rfl⟩

lemma weightLines_val (n : Fin 3 → ℕ) (A : WArr) (i j k : ℕ) :
    ∀ l ∈ weightLines n A, lineTriple l = (i, j, k) → lineVal l = A ![i, j, k] := by
  intro l hl ht
  rcases mem_weightLines.mp hl with ⟨a, b, c, _, _, _, rfl⟩
  simp [lineTriple, Prod.ext_iff] at ht
  obtain ⟨rfl, rfl, rfl⟩ := ht
  rfl

lemma weightLines_ne_nil (n : Fin 3 → ℕ) (A : WArr)
    (h0 : 0 < n 0) (h1 : 0 < n 1) (h2 : 0 < n 2) :
    weightLines n A ≠ [] := by
  intro h
  have hm := weightLines_mem_self n A 0 0 0 h0 h1 h2
  rw [h] at hm
  cases hm

lemma weightLines_zeroVal (n : Fin 3 → ℕ) (A : WArr) (hA : ∀ idx, A idx = 0) :
    ∀ l ∈ weightLines n A, lineVal l = 0 := by
  intro l hl
  rcases mem_weightLines.mp hl with ⟨i, j, k, _, _, _, rfl⟩
  simpa [lineVal] using hA ![i, j, k]

/-! ### Lemmas about reading one weight section -/

lemma readWeightArr_eq_applyLines (n : Fin 3 → ℕ) (lines : List Line)
    (hne : lines ≠ []) :
    readWeightArr n lines = applyLines n (fun _ => 0) lines := by
  cases lines with
  | nil => cases hne rfl
  | cons l rest => rfl

lemma readWeightArr_write (n : Fin 3 → ℕ) (A : WArr)
    (h0 : 0 < n 0) (h1 : 0 < n 1) (h2 : 0 < n 2) :
    ∃ B, readWeightArr n (weightLines n A) = .ok B ∧
      ∀ i j k, i < n 0 → j < n 1 → k < n 2 → B ![i, j, k] = A ![i, j, k] := by
  obtain ⟨B, hB⟩ :=
    applyLines_isOk n (weightLines n A) (fun _ => 0) (weightLines_bounds n A)
  refine ⟨B, ?_, ?_⟩
  · rw [readWeightArr_eq_applyLines n _ (weightLines_ne_nil n A h0 h1 h2)]
    exact hB
  · intro i j k hi hj hk
    have hidx0 : (![i, j, k] : Fin 3 → ℕ) 0 = i := rfl
    have hidx1 : (![i, j, k] : Fin 3 → ℕ) 1 = j := rfl
    have hidx2 : (![i, j, k] : Fin 3 → ℕ) 2 = k := rfl
    apply applyLines_set n (weightLines n A) _ B ![i, j, k] (A ![i, j, k]) hB
    · refine ⟨(i, j, k, A ![i, j, k]), weightLines_mem_self n A i j k hi hj hk, ?_⟩
      rw [hidx0, hidx1, hidx2]
      rfl
    · intro l hl ht
      rw [hidx0, hidx1, hidx2] at ht
      exact weightLines_val n A i j k l hl ht

lemma readWeightArr_zero (n : Fin 3 → ℕ) (lines : List Line) (B : WArr)
    (hz : ∀ l ∈ lines, lineVal l = 0)
    (h : readWeightArr n lines = .ok B) : ∀ idx, B idx = 0 := by
  cases lines with
  | nil => cases h
  | cons l rest =>
      exact applyLines_zero n (l :: rest) (fun _ => 0) B hz (fun _ => rfl) h

/-! ### Lemmas about reading a whole file -/

lemma read_parameters_file_ok (f : PrmFile) (s : FFDParameters) (Bx By Bz : WArr)
    (hx : readWeightArr f.ncpts f.linesX = .ok Bx)
    (hy : readWeightArr f.ncpts f.linesY = .ok By)
    (hz : readWeightArr f.ncpts f.linesZ = .ok Bz) :
    read_parameters_file f s = .ok { s with
      n_control_points := f.ncpts
      box_length := f.blen
      box_origin := f.borigin
      rot_angle := f.rangle
      array_mu_x := Bx
      array_mu_y := By
      array_mu_z := Bz } := by
  rw [read_parameters_file, hx, hy, hz]

lemma read_parameters_file_ok_inv (f : PrmFile) (s t : FFDParameters)
    (h : read_parameters_file f s = .ok t) :
    ∃ Bx By Bz,
      readWeightArr f.ncpts f.linesX = .ok Bx ∧
      readWeightArr f.ncpts f.linesY = .ok By ∧
      readWeightArr f.ncpts f.linesZ = .ok Bz ∧
      t = { s with
        n_control_points := f.ncpts
        box_length := f.blen
        box_origin := f.borigin
        rot_angle := f.rangle
        array_mu_x := Bx
        array_mu_y := By
        array_mu_z := Bz } := by
  rw [read_parameters_file] at h
  cases hx : readWeightArr f.ncpts f.linesX with
  | error e => rw [hx] at h; simp at h
  | ok Bx =>
      cases hy : readWeightArr f.ncpts f.linesY with
      | error e => rw [hx, hy] at h; simp at h
      | ok By =>
          cases hz : readWeightArr f.ncpts f.linesZ with
          | error e => rw [hx, hy, hz] at h; simp at h
          | ok Bz =>
              rw [hx, hy, hz] at h
              cases h
              exact ⟨Bx, By, Bz, rfl, rfl, rfl, rfl⟩

lemma readWeightArr_unset (n : Fin 3 → ℕ) (lines : List Line) (B : WArr)
    (i j k : ℕ) (h : readWeightArr n lines = .ok B)
    (hun : ∀ l ∈ lines, lineTriple l ≠ (i, j, k)) : B ![i, j, k] = 0 := by
  cases lines with
  | nil => cases h
  | cons l rest =>
      exact applyLines_unset n (l :: rest) (fun _ => 0) B ![i, j, k] h
        (fun x hx => hun x hx)

lemma readWeightArr_okBounds (n : Fin 3 → ℕ) (lines : List Line) (B : WArr)
    (h : readWeightArr n lines = .ok B) : ∀ l ∈ lines, lineInBounds n l = true := by
  cases lines with
  | nil => cases h
  | cons l rest => exact applyLines_okBounds n (l :: rest) (fun _ => 0) B h

/-! ### Claim C3: write/read round trip -/

/-- C3: for a store with positive resolution, writing and re-reading the
parameters file succeeds and reproduces the resolution, box geometry,
rotation angles and every weight entry inside the shape, exactly (the
model works in exact rationals; Python float formatting round-trips). -/
theorem spec_C3 (s t : FFDParameters) (i j k : ℕ)
    (hpos : ∀ r : Fin 3, 0 < s.n_control_points r)
    (hi : i < s.n_control_points 0) (hj : j < s.n_control_points 1)
    (hk : k < s.n_control_points 2) :
    read_parameters_file (write_parameters s) t =
      .ok (readResult (write_parameters s) t)
    ∧ (readResult (write_parameters s) t).n_control_points = s.n_control_points
    ∧ (readResult (write_parameters s) t).box_length = s.box_length
    ∧ (readResult (write_parameters s) t).box_origin = s.box_origin
    ∧ (readResult (write_parameters s) t).rot_angle = s.rot_angle
    ∧ (readResult (write_parameters s) t).array_mu_x ![i, j, k] =
        s.array_mu_x ![i, j, k]
    ∧ (readResult (write_parameters s) t).array_mu_y ![i, j, k] =
        s.array_mu_y ![i, j, k]
    ∧ (readResult (write_parameters s) t).array_mu_z ![i, j, k] =
        s.array_mu_z ![i, j, k] := by
  obtain ⟨Bx, hBx, hBxv⟩ := readWeightArr_write s.n_control_points s.array_mu_x
    (hpos 0) (hpos 1) (hpos 2)
  obtain ⟨By, hBy, hByv⟩ := readWeightArr_write s.n_control_points s.array_mu_y
    (hpos 0) (hpos 1) (hpos 2)
  obtain ⟨Bz, hBz, hBzv⟩ := readWeightArr_write s.n_control_points s.array_mu_z
    (hpos 0) (hpos 1) (hpos 2)
  have hok := read_parameters_file_ok (write_parameters s) t Bx By Bz hBx hBy hBz
  have hres : readResult (write_parameters s) t = { t with
      n_control_points := s.n_control_points
      box_length := s.box_length
      box_origin := s.box_origin
      rot_angle := s.rot_angle
      array_mu_x := Bx
      array_mu_y := By
      array_mu_z := Bz } := by
    rw [readResult, hok]
    rfl
  refine ⟨by rw [hok, hres]; rfl, ?_, ?_, ?_, ?_, ?_, ?_, ?_⟩
  · rw [hres]
  · rw [hres]
  · rw [hres]
  · rw [hres]
  · rw [hres]; exact hBxv i j k hi hj hk
  · rw [hres]; exact hByv i j k hi hj hk
  · rw [hres]; exact hBzv i j k hi hj hk

/-- C3 witness: round trip of `roundtripStore` read into the default
store, checked at grid index (0, 0, 1). -/
theorem spec_C3_witness :
    read_parameters_file (write_parameters roundtripStore) defaultFFD =
      .ok (readResult (write_parameters roundtripStore) defaultFFD)
    ∧ (readResult (write_parameters roundtripStore) defaultFFD).n_control_points =
        roundtripStore.n_control_points
    ∧ (readResult (write_parameters roundtripStore) defaultFFD).box_length =
        roundtripStore.box_length
    ∧ (readResult (write_parameters roundtripStore) defaultFFD).box_origin =
        roundtripStore.box_origin
    ∧ (readResult (write_parameters roundtripStore) defaultFFD).rot_angle =
        roundtripStore.rot_angle
    ∧ (readResult (write_parameters roundtripStore) defaultFFD).array_mu_x ![0, 0, 1] =
        roundtripStore.array_mu_x ![0, 0, 1]
    ∧ (readResult (write_parameters roundtripStore) defaultFFD).array_mu_y ![0, 0, 1] =
        roundtripStore.array_mu_y ![0, 0, 1]
    ∧ (readResult (write_parameters roundtripStore) defaultFFD).array_mu_z ![0, 0, 1] =
        roundtripStore.array_mu_z ![0, 0, 1] :=
  spec_C3 roundtripStore defaultFFD 0 0 1 (by decide) (by decide) (by decide)
    (by decide)

/-! ### Claim C4: reading an existing file -/

/-- C4: a successful read takes its resolution from the file, leaves every
weight entry with no listed line exactly zero (arrays are reallocated as
zeros and only listed entries are set), and can only have succeeded if
every listed line is inside the declared resolution — equivalently, a
listed out-of-range index makes the read fail. -/
theorem spec_C4 (f : PrmFile) (s t : FFDParameters) (i j k : ℕ) (l : Line)
    (hok : read_parameters_file f s = .ok t) :
    t.n_control_points = f.ncpts
    ∧ ((∀ lx ∈ f.linesX, lineTriple lx ≠ (i, j, k)) →
        t.array_mu_x ![i, j, k] = 0)
    ∧ ((∀ ly ∈ f.linesY, lineTriple ly ≠ (i, j, k)) →
        t.array_mu_y ![i, j, k] = 0)
    ∧ ((∀ lz ∈ f.linesZ, lineTriple lz ≠ (i, j, k)) →
        t.array_mu_z ![i, j, k] = 0)
    ∧ ((l ∈ f.linesX ∨ l ∈ f.linesY ∨ l ∈ f.linesZ) →
        lineInBounds f.ncpts l = true) := by
  obtain ⟨Bx, By, Bz, hx, hy, hz, rfl⟩ := read_parameters_file_ok_inv f s t hok
  refine ⟨rfl, ?_, ?_, ?_, ?_⟩
  · exact fun h => readWeightArr_unset f.ncpts f.linesX Bx i j k hx h
  · exact fun h => readWeightArr_unset f.ncpts f.linesY By i j k hy h
  · exact fun h => readWeightArr_unset f.ncpts f.linesZ Bz i j k hz h
  · rintro (hm | hm | hm)
    · exact readWeightArr_okBounds f.ncpts f.linesX Bx hx l hm
    · exact readWeightArr_okBounds f.ncpts f.linesY By hy l hm
    · exact readWeightArr_okBounds f.ncpts f.linesZ Bz hz l hm

/-- C4 witness: reading `sampleFile` into the default store; index
(1, 0, 0) is unlisted in every section and stays zero, and the listed x
line (0,0,0,3) is within the declared resolution. -/
theorem spec_C4_witness :
    (readResult sampleFile defaultFFD).n_control_points = sampleFile.ncpts
    ∧ (readResult sampleFile defaultFFD).array_mu_x ![1, 0, 0] = 0
    ∧ (readResult sampleFile defaultFFD).array_mu_y ![1, 0, 0] = 0
    ∧ (readResult sampleFile defaultFFD).array_mu_z ![1, 0, 0] = 0
    ∧ lineInBounds sampleFile.ncpts (0, 0, 0, 3) = true := by
  have h := spec_C4 sampleFile defaultFFD (readResult sampleFile defaultFFD)
    1 0 0 (0, 0, 0, 3) (by rfl)
  exact ⟨h.1, h.2.1 (by decide), h.2.2.1 (by decide), h.2.2.2.1 (by decide),
    h.2.2.2.2 (Or.inl (by decide))⟩

/-! ### Claim C5: read on a missing path -/

lemma default_roundtrip :
    read_parameters_file (write_parameters defaultFFD) defaultFFD = .ok defaultFFD := by
  obtain ⟨Bx, hBx, _⟩ := readWeightArr_write defaultFFD.n_control_points
    defaultFFD.array_mu_x (by decide) (by decide) (by decide)
  obtain ⟨By, hBy, _⟩ := readWeightArr_write defaultFFD.n_control_points
    defaultFFD.array_mu_y (by decide) (by decide) (by decide)
  obtain ⟨Bz, hBz, _⟩ := readWeightArr_write defaultFFD.n_control_points
    defaultFFD.array_mu_z (by decide) (by decide) (by decide)
  have hx0 : Bx = defaultFFD.array_mu_x :=
    funext fun idx => readWeightArr_zero _ _ _
      (weightLines_zeroVal _ _ fun _ => rfl) hBx idx
  have hy0 : By = defaultFFD.array_mu_y :=
    funext fun idx => readWeightArr_zero _ _ _
      (weightLines_zeroVal _ _ fun _ => rfl) hBy idx
  have hz0 : Bz = defaultFFD.array_mu_z :=
    funext fun idx => readWeightArr_zero _ _ _
      (weightLines_zeroVal _ _ fun _ => rfl) hBz idx
  rw [hx0] at hBx
  rw [hy0] at hBy
  rw [hz0] at hBz
  have hok := read_parameters_file_ok (write_parameters defaultFFD) defaultFFD
    defaultFFD.array_mu_x defaultFFD.array_mu_y defaultFFD.array_mu_z hBx hBy hBz
  rw [hok]
  rfl

/-- C5 counterexample: calling `read_parameters` on a missing path with a
store built as `FFDParameters(n_control_points=[2, 3, 2])` (the docstring
example) does not produce the default store — the method writes and keeps
the *current* store, whose resolution is (2,3,2), not (2,2,2). -/
theorem spec_C5_cex :
    ¬ ((read_parameters_missing nonDefaultStore).1 = defaultFFD) := by
  intro h
  have h2 := congrFun (congrArg FFDParameters.n_control_points h) 1
  exact absurd h2 (by decide)

/-- C5 amended: for every store, `read_parameters` on a missing path
writes the store's current contents to that path and leaves every field
of the store exactly as it was; in particular for the default-constructed
store the store afterwards equals the default, and an immediate second
read of the written file yields an equal store again. -/
theorem spec_C5_amended (s : FFDParameters) :
    read_parameters_missing s = (s, write_parameters s)
    ∧ read_parameters_missing defaultFFD = (defaultFFD, write_parameters defaultFFD)
    ∧ read_parameters_file (write_parameters defaultFFD) defaultFFD =
        .ok defaultFFD :=
  ⟨rfl, rfl, default_roundtrip⟩

/-! ### Claim C6: the writer emits every grid index -/

lemma sum_const_range (n c : ℕ) : ((List.range n).map fun _ => c).sum = n * c := by
  induction n with
  | zero => simp
  | succ m ih =>
      rw [List.range_succ, List.map_append, List.sum_append, ih]
      simp [Nat.succ_mul]

lemma weightLines_length (n : Fin 3 → ℕ) (A : WArr) :
    (weightLines n A).length = n 0 * (n 1 * n 2) := by
  rw [weightLines, List.length_flatMap]
  simp only [Function.comp_def]
  have h1 : ∀ i, (((List.range (n 1)).flatMap fun j =>
      (List.range (n 2)).map fun k => (i, j, k, A ![i, j, k]))).length =
        n 1 * n 2 := by
    intro i
    rw [List.length_flatMap]
    simp only [Function.comp_def]
    have h2 : ((List.range (n 1)).map fun j =>
        (((List.range (n 2)).map fun k => (i, j, k, A ![i, j, k]))).length) =
          (List.range (n 1)).map fun _ => n 2 := by
      simp
    rw [h2, sum_const_range]
  have h3 : ((List.range (n 0)).map fun i =>
      (((List.range (n 1)).flatMap fun j =>
        (List.range (n 2)).map fun k => (i, j, k, A ![i, j, k]))).length) =
        (List.range (n 0)).map fun _ => n 1 * n 2 := by
    simp only [h1]
  rw [h3, sum_const_range]

/-- C6: the writer emits one weight line for every grid index inside the
resolution — `n0·n1·n2` lines per axis section — and the line for any
in-range index (i, j, k) is present with the array's value there, zero
weights included. -/
theorem spec_C6 (s : FFDParameters) (i j k : ℕ)
    (hi : i < s.n_control_points 0) (hj : j < s.n_control_points 1)
    (hk : k < s.n_control_points 2) :
    (write_parameters s).linesX.length =
      s.n_control_points 0 * s.n_control_points 1 * s.n_control_points 2
    ∧ (write_parameters s).linesY.length =
      s.n_control_points 0 * s.n_control_points 1 * s.n_control_points 2
    ∧ (write_parameters s).linesZ.length =
      s.n_control_points 0 * s.n_control_points 1 * s.n_control_points 2
    ∧ (i, j, k, s.array_mu_x ![i, j, k]) ∈ (write_parameters s).linesX
    ∧ (i, j, k, s.array_mu_y ![i, j, k]) ∈ (write_parameters s).linesY
    ∧ (i, j, k, s.array_mu_z ![i, j, k]) ∈ (write_parameters s).linesZ := by
  refine ⟨?_, ?_, ?_,
    weightLines_mem_self _ _ i j k hi hj hk,
    weightLines_mem_self _ _ i j k hi hj hk,
    weightLines_mem_self _ _ i j k hi hj hk⟩
  · rw [show (write_parameters s).linesX =
        weightLines s.n_control_points s.array_mu_x from rfl,
      weightLines_length, mul_assoc]
  · rw [show (write_parameters s).linesY =
        weightLines s.n_control_points s.array_mu_y from rfl,
      weightLines_length, mul_assoc]
  · rw [show (write_parameters s).linesZ =
        weightLines s.n_control_points s.array_mu_z from rfl,
      weightLines_length, mul_assoc]

/-- C6 witness: the default store writes 8 lines per section and lists the
zero-weight line (0, 1, 0, 0) in each. -/
theorem spec_C6_witness :
    (write_parameters defaultFFD).linesX.length =
      defaultFFD.n_control_points 0 * defaultFFD.n_control_points 1 *
        defaultFFD.n_control_points 2
    ∧ (write_parameters defaultFFD).linesY.length =
      defaultFFD.n_control_points 0 * defaultFFD.n_control_points 1 *
        defaultFFD.n_control_points 2
    ∧ (write_parameters defaultFFD).linesZ.length =
      defaultFFD.n_control_points 0 * defaultFFD.n_control_points 1 *
        defaultFFD.n_control_points 2
    ∧ (0, 1, 0, defaultFFD.array_mu_x ![0, 1, 0]) ∈ (write_parameters defaultFFD).linesX
    ∧ (0, 1, 0, defaultFFD.array_mu_y ![0, 1, 0]) ∈ (write_parameters defaultFFD).linesY
    ∧ (0, 1, 0, defaultFFD.array_mu_z ![0, 1, 0]) ∈ (write_parameters defaultFFD).linesZ :=
  spec_C6 defaultFFD 0 1 0 (by decide) (by decide) (by decide)

/-! ### Claim C8: psi_mapping on a degenerate box -/

/-- C8 counterexample: on a store with a zero `box_length` component the
`psi_mapping` property does not fail — its body contains no raise and it
returns the diagonal reciprocal matrix (NumPy places `inf` in the zero
slots under a runtime warning only). -/
theorem spec_C8_cex :
    zeroLenStore.box_length 0 = 0
    ∧ psi_mappingE zeroLenStore =
        .ok (Matrix.diagonal fun r => (zeroLenStore.box_length r)⁻¹) :=
  ⟨rfl, rfl⟩

/-- C8 amended: `psi_mapping` performs no eager validation: for every
store, including those with zero or negative `box_length` components, it
returns the diagonal matrix of reciprocals without raising any error. -/
theorem spec_C8_amended (s : FFDParameters) :
    psi_mappingE s = .ok (Matrix.diagonal fun r => (s.box_length r)⁻¹) :=
  rfl

/-! ### Claim C9: mapping inverse law -/

/-- C9: for positive box lengths, `psi_mapping` is the diagonal matrix of
reciprocal lengths, `inv_psi_mapping` is the diagonal matrix of lengths,
and their product is the identity. -/
theorem spec_C9 (s : FFDParameters) (hpos : ∀ r : Fin 3, 0 < s.box_length r) :
    psi_mapping s = Matrix.diagonal (fun r => (s.box_length r)⁻¹)
    ∧ inv_psi_mapping s = Matrix.diagonal s.box_length
    ∧ inv_psi_mapping s * psi_mapping s = 1 := by
  refine ⟨rfl, rfl, ?_⟩
  rw [psi_mapping, inv_psi_mapping, Matrix.diagonal_mul_diagonal]
  have h : (fun r => s.box_length r * (s.box_length r)⁻¹) = fun _ : Fin 3 => (1 : ℚ) :=
    funext fun r => mul_inv_cancel₀ (ne_of_gt (hpos r))
  rw [h]
  exact Matrix.diagonal_one

/-- C9 witness: the default store has unit box lengths. -/
theorem spec_C9_witness :
    psi_mapping defaultFFD = Matrix.diagonal (fun r => (defaultFFD.box_length r)⁻¹)
    ∧ inv_psi_mapping defaultFFD = Matrix.diagonal defaultFFD.box_length
    ∧ inv_psi_mapping defaultFFD * psi_mapping defaultFFD = 1 :=
  spec_C9 defaultFFD (by decide)

/-! ### Claim C10: read on a missing path keeps and writes current fields -/

/-- C10: `read_parameters` on a path with no existing file writes the
store's current field values — resolution, box geometry, rotation and all
three weight arrays as they are now, not the defaults — and returns with
every in-memory field unchanged (`conversion_unit` included). -/
theorem spec_C10 (s : FFDParameters) :
    (read_parameters_missing s).1 = s
    ∧ (read_parameters_missing s).1.conversion_unit = s.conversion_unit
    ∧ (read_parameters_missing s).2 = write_parameters s
    ∧ (read_parameters_missing s).2.ncpts = s.n_control_points
    ∧ (read_parameters_missing s).2.blen = s.box_length
    ∧ (read_parameters_missing s).2.borigin = s.box_origin
    ∧ (read_parameters_missing s).2.rangle = s.rot_angle
    ∧ (read_parameters_missing s).2.linesX =
        weightLines s.n_control_points s.array_mu_x
    ∧ (read_parameters_missing s).2.linesY =
        weightLines s.n_control_points s.array_mu_y
    ∧ (read_parameters_missing s).2.linesZ =
        weightLines s.n_control_points s.array_mu_z :=
  ⟨rfl, rfl, rfl, rfl, rfl, rfl, rfl, rfl, rfl, rfl⟩

/-! ### Claim C7: undisplaced lattice of the default store -/

lemma rotAboutX_zero : rotAboutX 0 = 1 := by
  rw [rotAboutX, Real.cos_zero, Real.sin_zero, neg_zero, Matrix.one_fin_three]

lemma rotAboutY_zero : rotAboutY 0 = 1 := by
  rw [rotAboutY, Real.cos_zero, Real.sin_zero, neg_zero, Matrix.one_fin_three]

lemma rotAboutZ_zero : rotAboutZ 0 = 1 := by
  rw [rotAboutZ, Real.cos_zero, Real.sin_zero, neg_zero, Matrix.one_fin_three]

lemma angles2matrix_zero : angles2matrix 0 0 0 = 1 := by
  rw [angles2matrix, rotAboutX_zero, rotAboutY_zero, rotAboutZ_zero, one_mul, one_mul]

lemma radians_zero : radians 0 = 0 := by
  simp [radians]

lemma rotation_matrix_default : rotation_matrix defaultFFD = 1 := by
  rw [rotation_matrix, show defaultFFD.rot_angle 2 = 0 from rfl,
    show defaultFFD.rot_angle 1 = 0 from rfl,
    show defaultFFD.rot_angle 0 = 0 from rfl, radians_zero, angles2matrix_zero]

lemma castPoint_cons (a b c : ℚ) :
    castPoint ![a, b, c] = ![(a : ℝ), (b : ℝ), (c : ℝ)] := by
  funext r
  fin_cases r <;> rfl

lemma castPoint_origin_default : castPoint defaultFFD.box_origin = 0 := by
  funext r
  fin_cases r <;> simp [castPoint, defaultFFD]

lemma latticePoints_default :
    latticePoints defaultFFD =
      [![0, 0, 0], ![0, 0, 1], ![0, 1, 0], ![0, 1, 1],
       ![1, 0, 0], ![1, 0, 1], ![1, 1, 0], ![1, 1, 1]] := by
  have e0 : linspace 1 2 0 = 0 := by norm_num [linspace]
  have e1 : linspace 1 2 1 = 1 := by norm_num [linspace]
  rw [latticePoints]
  norm_num [defaultFFD, List.range_succ, e0, e1]

lemma save_default : save_points_undisplaced defaultFFD = unitCubeCorners := by
  rw [save_points_undisplaced, rotation_matrix_default, castPoint_origin_default]
  have hmap : ∀ p : Fin 3 → ℚ,
      (1 : Matrix (Fin 3) (Fin 3) ℝ).mulVec (castPoint p) + 0 = castPoint p := by
    intro p
    rw [Matrix.one_mulVec, add_zero]
  simp only [hmap]
  rw [latticePoints_default]
  simp only [List.map_cons, List.map_nil, castPoint_cons]
  norm_num [unitCubeCorners]

/-- C7: the default store — resolution (2,2,2), unit box, zero origin and
rotation, all weights zero — generates exactly the 8 unit-cube corners in
row-major (i, j, k) order, both directly and after a write-then-read round
trip of the store; in general the undisplaced grid is the linspace grid
with first point 0 on every axis and last point equal to the box length
whenever the resolution is at least 2. -/
theorem spec_C7 :
    save_points_undisplaced defaultFFD = unitCubeCorners
    ∧ read_parameters_file (write_parameters defaultFFD) defaultFFD = .ok defaultFFD
    ∧ save_points_undisplaced (readResult (write_parameters defaultFFD) defaultFFD) =
        unitCubeCorners
    ∧ (∀ (L : ℚ) (n : ℕ), linspace L n 0 = 0)
    ∧ (∀ (L : ℚ) (m : ℕ), linspace L (m + 2) (m + 1) = L) := by
  have hres : readResult (write_parameters defaultFFD) defaultFFD = defaultFFD := by
    rw [readResult, default_roundtrip]
    rfl
  refine ⟨save_default, default_roundtrip, by rw [hres]; exact save_default, ?_, ?_⟩
  · intro L n
    rw [linspace]
    split
    · rfl
    · norm_num
  · intro L m
    rw [linspace, if_neg (by omega : ¬ (m + 2 ≤ 1))]
    have h2 : ((m + 2 - 1 : ℕ) : ℚ) = ((m + 1 : ℕ) : ℚ) := by norm_num
    rw [h2, mul_div_assoc, div_self (Nat.cast_ne_zero.mpr (Nat.succ_ne_zero m)),
      mul_one]
